import Mathlib

/-!
Shallow embedding of the struct-table-view core of the `gi` repository
(file `giv/structtableview.go`), together with theorems settling the
specified properties of its mutation, sorting, selection and rebuild
operations.

Modelling conventions:
* A record type is described by the ordered list of its fields' primitive
  kinds (`Kind`), a record value is the list of its field values (`Val`);
  this mirrors `reflect.Type`/`reflect.Value` as used by the source.
* Go `int` indices are `Int` (they can be negative, e.g. `-1` sort/selection
  sentinels); slice lengths are coerced as needed.
* `float64` field values are modelled by an ordered numeric carrier (`Int`);
  IEEE NaN/negative-zero corner cases are outside this model.
* `time.Time` and `gi.FileTime` field values are modelled by their
  chronological coordinate (an `Int`), with `Before` as `<`.
* `sort.Slice(x, less)` guarantees only that the result is a permutation of
  `x` in which `less x[j] x[i]` never holds for `i ≤ j`; the algorithm is
  unspecified (and unstable).  It is modelled by `List.insertionSort` on the
  relation `fun a b => ¬ less b a`, which meets exactly that contract and
  coincides step-for-step with Go's own `insertionSort` path (used by
  `sort.Slice` for short slices, in particular for every concrete list
  evaluated below).
* Failure that Go reports by panicking (out-of-range `reflect.Slice`
  bounds) is modelled by `Option`/`none`.
-/

namespace StructTableViewModel

/-- The primitive kind of a struct field, as dispatched on by
`SortStructSlice` via `reflect.Kind`: the signed-integer kinds, the
unsigned-integer kinds, the float kinds, `String`, the two supported
timestamp struct types (`gi.FileTime`, `time.Time`), and everything else. -/
inductive Kind where
  | kInt
  | kUint
  | kFloat
  | kString
  | kTime
  | kOther
deriving DecidableEq, Repr

/-- One field value of a record (a `reflect.Value` of the field), tagged by
its kind. `vFloat` and `vTime` carry the ordered coordinate used by the
comparisons in the source (see file header). -/
inductive Val where
  | vInt (v : Int)
  | vUint (v : Nat)
  | vFloat (v : Int)
  | vString (v : String)
  | vTime (v : Int)
  | vOther (v : Nat)
deriving DecidableEq, Repr

/-- A record (struct) value: its field values in field order. -/
abbrev Record := List Val

/-- The zero `reflect.Value` of a field of the given kind
(`reflect.New(typ).Elem()`). -/
def zeroVal : Kind → Val
  | .kInt => .vInt 0
  | .kUint => .vUint 0
  | .kFloat => .vFloat 0
  | .kString => .vString ""
  | .kTime => .vTime 0
  | .kOther => .vOther 0

/-- The zero-valued record of a struct type (`reflect.New(svtyp.Elem())`). -/
def zeroRec (struTyp : List Kind) : Record :=
  struTyp.map zeroVal

/-- Field access `val.Elem().Field(i)`; a junk default for ill-formed
records (a well-formed record has one value per declared field). -/
def fieldVal (r : Record) (i : Nat) : Val :=
  r.getD i (Val.vOther 0)

/-- `reflect.Value.Int()` on field `i` (only reached when the field kind is
a signed-integer kind). -/
def getIntF (r : Record) (i : Nat) : Int :=
  match fieldVal r i with
  | .vInt v => v
  | _ => 0

/-- `reflect.Value.Uint()` on field `i`. -/
def getUintF (r : Record) (i : Nat) : Nat :=
  match fieldVal r i with
  | .vUint v => v
  | _ => 0

/-- `reflect.Value.Float()` on field `i` (modelled carrier, see header). -/
def getFloatF (r : Record) (i : Nat) : Int :=
  match fieldVal r i with
  | .vFloat v => v
  | _ => 0

/-- `reflect.Value.String()` on field `i`. -/
def getStringF (r : Record) (i : Nat) : String :=
  match fieldVal r i with
  | .vString v => v
  | _ => ""

/-- The chronological coordinate of a timestamp field `i`
(`.Interface().(time.Time)` / `.(FileTime)`). -/
def getTimeF (r : Record) (i : Nat) : Int :=
  match fieldVal r i with
  | .vTime v => v
  | _ => 0

/-- `sort.Slice(x, less)`: reorders into a permutation in which
`less x[j] x[i]` fails whenever `i ≤ j`; modelled by insertion sort on
`fun a b => ¬ less b a` (see file header for why this is faithful). -/
def sortSlice {α : Type} (less : α → α → Bool) (l : List α) : List α :=
  List.insertionSort (fun a b => ¬ less b a) l

/-- The comparator closure passed to `sort.Slice` by every sortable branch
of `SortStructSlice`: `if ascending { return iv < jv } else { return iv > jv }`,
with `iv`/`jv` the extracted field keys. -/
def cmpBy {α β : Type} [LinearOrder β] (key : α → β) (ascending : Bool)
    (ri rj : α) : Bool :=
  if ascending then key ri < key rj else key ri > key rj

/-- Is the kind one the sort engine supports? (the five comparator branches
of the kind switch in `SortStructSlice`). -/
def sortableKind : Kind → Bool
  | .kInt => true
  | .kUint => true
  | .kFloat => true
  | .kString => true
  | .kTime => true
  | .kOther => false

/-- `SortStructSlice(struSlice, fldIdx, ascending)` from
`giv/structtableview.go:506`.  Returns the error result (`none` = Go `nil`)
together with the sequence the in-place sort leaves behind.  The field-index
range check happens before anything else; the kind switch either sorts with
the kind's comparator or (default branch) errors, leaving the sequence
untouched. -/
def SortStructSlice (struTyp : List Kind) (seq : List Record) (fldIdx : Int)
    (ascending : Bool) : Option String × List Record :=
  if fldIdx < 0 ∨ (struTyp.length : Int) ≤ fldIdx then
    (some "gi.SortStructSlice: field index out of range", seq)
  else
    match struTyp.getD fldIdx.toNat Kind.kOther with
    | .kInt => (none, sortSlice (cmpBy (getIntF · fldIdx.toNat) ascending) seq)
    | .kUint => (none, sortSlice (cmpBy (getUintF · fldIdx.toNat) ascending) seq)
    | .kFloat => (none, sortSlice (cmpBy (getFloatF · fldIdx.toNat) ascending) seq)
    | .kString => (none, sortSlice (cmpBy (getStringF · fldIdx.toNat) ascending) seq)
    | .kTime => (none, sortSlice (cmpBy (getTimeF · fldIdx.toNat) ascending) seq)
    | .kOther => (some "SortStructSlice: unable to sort on field of type", seq)

/-- `SliceNewAt(idx)` from `giv/structtableview.go:424`: appends the zero
record (`reflect.Append`), then, only when `0 ≤ idx < sz-1`, shifts
`svnp[idx:sz]` right by one (`reflect.Copy` with overlapping memmove
semantics, i.e. the post-copy list is `svnp.take (idx+1) ++ seq.drop idx`)
and stores the zero record at `idx`.  No index validation is performed and
nothing is returned. -/
def SliceNewAt (struTyp : List Kind) (seq : List Record) (idx : Int) :
    List Record :=
  if 0 ≤ idx ∧ idx < (seq.length : Int) - 1 then
    ((seq ++ [zeroRec struTyp]).take (idx.toNat + 1) ++
        seq.drop idx.toNat).set idx.toNat (zeroRec struTyp)
  else
    seq ++ [zeroRec struTyp]

/-- `SliceDelete(idx)` from `giv/structtableview.go:446`: shifts
`svnp[idx+1:sz]` left onto `svnp[idx:sz-1]`, zeroes the last slot, and
re-slices to length `sz-1`.  The `reflect.Slice`/`reflect.Index` bounds make
Go panic unless `0 ≤ idx < sz`; the panic is modelled as `none`.  No error
value is returned to the caller. -/
def SliceDelete (struTyp : List Kind) (seq : List Record) (idx : Int) :
    Option (List Record) :=
  if 0 ≤ idx ∧ idx < (seq.length : Int) then
    some ((seq.take idx.toNat ++ seq.drop (idx.toNat + 1) ++
      [zeroRec struTyp]).take (seq.length - 1))
  else
    none

/-- `fmt.Sprintf("%05d", i)` for the row index labels. -/
def pad5 (n : Nat) : String :=
  let s := toString n
  String.mk (List.replicate (5 - s.length) '0') ++ s

/-- The display text a value view pushes into its widget
(`vv.ConfigWidget(widg)` rendering the current field value). -/
def showVal : Val → String
  | .vInt v => toString v
  | .vUint v => toString v
  | .vFloat v => toString v
  | .vString v => v
  | .vTime v => toString v
  | .vOther v => toString v

/-- Observable state of one widget in the grid frame's `Kids` array: its
slot name (set by `SetChild` on creation), its displayed text, and its
selected flag (`SetSelected`/`ClearSelected`). -/
structure Widget where
  name : String
  text : String
  selected : Bool
deriving DecidableEq, Repr

/-- A slot of `sgf.Kids`: `none` is a nil child (fresh `make(ki.Slice, n)`
slots before they are filled). -/
abbrev Kids := List (Option Widget)

/-- One cell pass of `ConfigSliceGridRows`: reuse the widget when the slot
is non-nil (`vv.ConfigWidget` refreshes its text, and inactive mode then
does `wb.ClearSelected()`), otherwise create it via `SetChild` and
configure it the same way. -/
def configCell (inactive : Bool) (kids : Kids) (cidx : Nat)
    (nm txt : String) : Kids :=
  match kids.getD cidx none with
  | some w =>
      kids.set cidx (some { w with
        text := txt
        selected := if inactive then false else w.selected })
  | none => kids.set cidx (some ⟨nm, txt, false⟩)

/-- The `for fli := 0; fli < n; fli++` field loop of one row of
`ConfigSliceGridRows` (value widgets at `ridx + 1 + fli`). -/
def fieldsLoop (inactive : Bool) (r : Record) (ridx : Nat) (idxtxt : String)
    (kids : Kids) : Nat → Kids
  | 0 => kids
  | fli + 1 =>
      configCell inactive (fieldsLoop inactive r ridx idxtxt kids fli)
        (ridx + 1 + fli) ("value-" ++ toString fli ++ "." ++ idxtxt)
        (showVal (fieldVal r fli))

/-- One row pass of `ConfigSliceGridRows`: the index label at `ridx`
(reused if present, text refreshed to `%05d`), the per-field value widgets,
and, when editable, fresh add/delete action widgets at the two trailing
slots (`SetChild` with newly created actions). -/
def configRow (struTyp : List Kind) (inactive : Bool) (seq : List Record)
    (nW : Nat) (kids : Kids) (i : Nat) : Kids :=
  let ridx := i * nW
  let r := seq.getD i []
  let idxtxt := pad5 i
  let kids1 :=
    match kids.getD ridx none with
    | some w => kids.set ridx (some { w with text := idxtxt })
    | none => kids.set ridx (some ⟨"index-" ++ idxtxt, idxtxt, false⟩)
  let kids2 := fieldsLoop inactive r ridx idxtxt kids1 struTyp.length
  if inactive then kids2
  else
    (kids2.set (ridx + 1 + struTyp.length)
        (some ⟨"add-" ++ idxtxt, "plus", false⟩)).set
      (ridx + 1 + struTyp.length + 1) (some ⟨"del-" ++ idxtxt, "minus", false⟩)

/-- The `for i := 0; i < sz; i++` row loop of `ConfigSliceGridRows`. -/
def rowsLoop (struTyp : List Kind) (inactive : Bool) (seq : List Record)
    (nW : Nat) (kids : Kids) : Nat → Kids
  | 0 => kids
  | i + 1 => configRow struTyp inactive seq nW
      (rowsLoop struTyp inactive seq nW kids i) i

/-- `ConfigSliceGridRows` from `giv/structtableview.go:272`: walks every
row of the current sequence and fills/refreshes the widget table in place.
Field names, tooltips and signal wiring carry no observable state for the
properties below and are not tracked. -/
def ConfigSliceGridRows (struTyp : List Kind) (inactive : Bool)
    (seq : List Record) (kids : Kids) : Kids :=
  let nfld := struTyp.length
  let nW := 1 + nfld + (if inactive then 0 else 2)
  rowsLoop struTyp inactive seq nW kids seq.length

/-- The identity and shape of a bound slice value (`sv.Slice`, an
`interface{}`): an identity token standing for the interface/pointer
identity compared by `==`/`!=`, the shape facts the binder validates
(`Kind() == Ptr`, `Elem().Kind() == Slice`, element struct-ness), the
element struct type, and the current pointed-to contents. -/
structure SliceRef where
  id : Nat
  isPtr : Bool
  ptrToSlice : Bool
  elemIsStruct : Bool
  struTyp : List Kind
  contents : List Record
deriving DecidableEq, Repr

/-- The modelled fields of `StructTableView`: the bound slice reference and
the contents it points at (mutated in place by sort/insert/delete), the
save callback, selection and sort state, the rebuild cache key
(`builtSlice`, `builtSize`), mode, whether the `struct-grid` frame child
exists, the grid frame's `Kids`, the header sort icons, and the allocated
`Values` cache dimensions (fields × rows). -/
structure StructTableView where
  slice : Option SliceRef
  seq : List Record
  tmpSave : Option Nat
  selectedIdx : Int
  sortIdx : Int
  sortDesc : Bool
  builtId : Option Nat
  builtSize : Int
  inactive : Bool
  hasGrid : Bool
  kids : Kids
  headerIcons : List String
  valuesDims : Nat × Nat
deriving DecidableEq, Repr

/-- `sv.StructType()`: the struct type of the bound slice's elements. -/
def struTypOf (s : StructTableView) : List Kind :=
  match s.slice with
  | some r => r.struTyp
  | none => []

/-- `ConfigSliceGrid` from `giv/structtableview.go:145`: nil-slice guard,
then the rebuild-cache check `builtSlice == Slice && builtSize == sz`
(early no-op return), then cache update, selection reset, fresh `Values`
allocation, the `sg == nil` guard, header (re)configuration, a fresh
nil-filled `Kids` array of size `nWidgPerRow*sz`, the re-application of the
current sort state, and `ConfigSliceGridRows`. -/
def ConfigSliceGrid (s : StructTableView) : StructTableView :=
  match s.slice with
  | none => s
  | some sl =>
    let sz := s.seq.length
    if s.builtId = some sl.id ∧ s.builtSize = (sz : Int) then s
    else
      let nfld := sl.struTyp.length
      let nW := 1 + nfld + (if s.inactive then 0 else 2)
      let s1 := { s with
        builtId := some sl.id
        builtSize := (sz : Int)
        selectedIdx := -1
        valuesDims := (nfld, sz) }
      if !s1.hasGrid then s1
      else
        let hdrs := if s1.headerIcons.length = nfld then s1.headerIcons
          else List.replicate nfld ""
        let kids0 : Kids := List.replicate (nW * sz) none
        let seq' := if 0 ≤ s1.sortIdx then
            (SortStructSlice sl.struTyp s1.seq s1.sortIdx (!s1.sortDesc)).2
          else s1.seq
        { s1 with
          headerIcons := hdrs
          seq := seq'
          kids := ConfigSliceGridRows sl.struTyp s1.inactive seq' kids0 }

/-- Set the selected flag of `sgf.Kids[j]`, guarded by
`sgf.Kids.IsValidIndex(seldx)`; a nil slot is left alone (the source would
cast nil and is never handed one on a fully built grid). -/
def setKidSel (kids : Kids) (j : Int) (b : Bool) : Kids :=
  if 0 ≤ j ∧ j < (kids.length : Int) then
    kids.set j.toNat ((kids.getD j.toNat none).map
      (fun w => { w with selected := b }))
  else kids

/-- The `for fli := 0; fli < n; fli++` loop of `UpdateSelect` that sets or
clears the selected flag of the value widgets of row `row`
(slots `row*nW + 1 + fli`). -/
def selRowLoop (kids : Kids) (row : Int) (nW : Nat) (b : Bool) :
    Nat → Kids
  | 0 => kids
  | fli + 1 => setKidSel (selRowLoop kids row nW b fli)
      (row * (nW : Int) + 1 + (fli : Int)) b

/-- `UpdateSelect(idx, sel)` from `giv/structtableview.go:389`: with
`nWidgPerRow = nfld + 1` (browse mode), first clears the previously
selected row's value widgets when `SelectedIdx >= 0`, then either selects
row `idx` (widgets set, `SelectedIdx = idx`) or clears the selection
(`SelectedIdx = -1`), and finally emits `SelectSig` with the new
`SelectedIdx` (returned alongside the new state). -/
def UpdateSelect (s : StructTableView) (idx : Int) (sel : Bool) :
    StructTableView × Int :=
  let nfld := (struTypOf s).length
  let nW := nfld + 1
  let kids1 := if 0 ≤ s.selectedIdx then
      selRowLoop s.kids s.selectedIdx nW false nfld
    else s.kids
  if sel then
    let s' := { s with selectedIdx := idx, kids := selRowLoop kids1 idx nW true nfld }
    (s', s'.selectedIdx)
  else
    let s' := { s with selectedIdx := -1, kids := kids1 }
    (s', s'.selectedIdx)

/-- `SortSliceAction(fldIdx)` from `giv/structtableview.go:466`: the header
loop toggles `SortDesc` when the activated field is already the sort field
(and only then updates the local `ascending` from it — otherwise
`ascending` keeps its initial `true`), sets the activated header's icon
from `ascending` and every other header's icon to "none", stores
`SortIdx = fldIdx`, and sorts with direction `!SortDesc` before
re-configuring the rows. -/
def SortSliceAction (s : StructTableView) (fldIdx : Int) : StructTableView :=
  let struTyp := struTypOf s
  let nfld := struTyp.length
  let hit := 0 ≤ fldIdx ∧ fldIdx < (nfld : Int) ∧ s.sortIdx = fldIdx
  let desc' := if hit then !s.sortDesc else s.sortDesc
  let ascLocal := if hit then !desc' else true
  let icons := (List.range nfld).map (fun fli =>
    if (fli : Int) = fldIdx then
      (if ascLocal then "widget-wedge-up" else "widget-wedge-down")
    else "none")
  let seq' := (SortStructSlice struTyp s.seq fldIdx (!desc')).2
  { s with
    sortIdx := fldIdx
    sortDesc := desc'
    headerIcons := icons
    seq := seq'
    kids := ConfigSliceGridRows struTyp s.inactive seq' s.kids }

/-- `UpdateFromSlice` (`giv/structtableview.go:624`): `StdConfig` ensures
the standard frame children exist (so the `struct-grid` child is present
afterwards), then `ConfigSliceGrid`.  `ConfigSliceButtons` touches only the
button box, which carries none of the modelled state. -/
def UpdateFromSlice (s : StructTableView) : StructTableView :=
  ConfigSliceGrid { s with hasGrid := true }

/-- `SetSlice(sl, tmpSave)` from `giv/structtableview.go:53`.  When the new
value's identity differs from the current one, the sort state is reset
*first*, then the pointer and pointee shapes are validated (early return on
failure), then `sv.Slice = sl` is assigned, then the element struct-ness is
validated (early return on failure), then the selection is reset; the
shared tail stores the save callback and rebuilds. -/
def SetSlice (s : StructTableView) (sl : SliceRef) (tmpSave : Option Nat) :
    StructTableView :=
  if s.slice.map SliceRef.id ≠ some sl.id then
    let s1 := { s with sortIdx := -1, sortDesc := false }
    if !sl.isPtr then s1
    else if !sl.ptrToSlice then s1
    else
      let s2 := { s1 with slice := some sl, seq := sl.contents }
      if !sl.elemIsStruct then s2
      else
        UpdateFromSlice { s2 with selectedIdx := -1, tmpSave := tmpSave }
  else
    UpdateFromSlice { s with tmpSave := tmpSave }

/-! ## Helper lemmas -/

/-- The modelled `sort.Slice` call returns a permutation of its input. -/
theorem sortSlice_perm {α : Type} (less : α → α → Bool) (l : List α) :
    (sortSlice less l).Perm l :=
  List.perm_insertionSort _ l

/-- Sorting never changes the length of the sequence. -/
theorem sortStructSlice_length (struTyp : List Kind) (seq : List Record)
    (fldIdx : Int) (ascending : Bool) :
    (SortStructSlice struTyp seq fldIdx ascending).2.length = seq.length := by
  unfold SortStructSlice
  split
  · rfl
  · rcases hk : struTyp.getD fldIdx.toNat Kind.kOther <;> simp only [hk] <;>
      first
        | rfl
        | exact (sortSlice_perm _ _).length_eq

/-- `SortStructSlice` succeeds exactly on an in-range field index of a
sortable kind. -/
def validSortField (struTyp : List Kind) (fldIdx : Int) : Prop :=
  0 ≤ fldIdx ∧ fldIdx < (struTyp.length : Int) ∧
    sortableKind (struTyp.getD fldIdx.toNat Kind.kOther) = true

instance (struTyp : List Kind) (fldIdx : Int) :
    Decidable (validSortField struTyp fldIdx) := by
  unfold validSortField; infer_instance

/-- On a valid sortable field the sort engine reports no error. -/
theorem sortStructSlice_fst_of_valid {struTyp : List Kind}
    {seq : List Record} {fldIdx : Int} {ascending : Bool}
    (hv : validSortField struTyp fldIdx) :
    (SortStructSlice struTyp seq fldIdx ascending).1 = none := by
  obtain ⟨h0, h1, hs⟩ := hv
  unfold SortStructSlice
  rw [if_neg (by omega)]
  rcases hk : struTyp.getD fldIdx.toNat Kind.kOther <;>
    rw [hk] at hs <;> simp [hk, sortableKind] at hs ⊢

/-- On an invalid field the sort engine errors and leaves the sequence
untouched. -/
theorem sortStructSlice_of_invalid {struTyp : List Kind}
    {seq : List Record} {fldIdx : Int} {ascending : Bool}
    (hv : ¬ validSortField struTyp fldIdx) :
    (SortStructSlice struTyp seq fldIdx ascending).1 ≠ none ∧
      (SortStructSlice struTyp seq fldIdx ascending).2 = seq := by
  unfold SortStructSlice
  by_cases h : fldIdx < 0 ∨ (struTyp.length : Int) ≤ fldIdx
  · rw [if_pos h]
    exact ⟨by simp, rfl⟩
  · rw [if_neg h]
    have hs : sortableKind (struTyp.getD fldIdx.toNat Kind.kOther) = false := by
      cases hx : sortableKind (struTyp.getD fldIdx.toNat Kind.kOther)
      · rfl
      · exact absurd ⟨by omega, by omega, hx⟩ hv
    rcases hk : struTyp.getD fldIdx.toNat Kind.kOther <;> rw [hk] at hs <;>
      first
        | exact absurd hs (by decide)
        | simp [hk]

section SortTheory

variable {α β : Type} [LinearOrder β]

/-- The ascending comparator decides the strict key order. -/
theorem cmpBy_true_iff (key : α → β) (a b : α) :
    cmpBy key true a b = true ↔ key a < key b := by
  simp [cmpBy]

/-- The descending comparator decides the reversed strict key order. -/
theorem cmpBy_false_iff (key : α → β) (a b : α) :
    cmpBy key false a b = true ↔ key b < key a := by
  simp [cmpBy]

/-- The result of the modelled ascending `sort.Slice` call is sorted by
non-decreasing key. -/
theorem sortSlice_asc_sorted (key : α → β) (l : List α) :
    (sortSlice (cmpBy key true) l).Pairwise (fun a b => key a ≤ key b) := by
  haveI : IsTotal α (fun a b => ¬ cmpBy key true b a = true) := ⟨fun a b => by
    by_cases h : key a ≤ key b
    · exact Or.inl (by rw [cmpBy_true_iff]; exact not_lt.2 h)
    · exact Or.inr (by rw [cmpBy_true_iff]; exact not_lt.2 (le_of_not_le h))⟩
  haveI : IsTrans α (fun a b => ¬ cmpBy key true b a = true) :=
    ⟨fun a b c hab hbc => by
      rw [cmpBy_true_iff] at hab hbc ⊢
      exact not_lt.2 (le_trans (not_lt.1 hab) (not_lt.1 hbc))⟩
  have hs := List.sorted_insertionSort
    (fun a b => ¬ cmpBy key true b a = true) l
  exact hs.imp (fun h => not_lt.1 (by rwa [cmpBy_true_iff] at h))

/-- The result of the modelled descending `sort.Slice` call is sorted by
non-increasing key. -/
theorem sortSlice_desc_sorted (key : α → β) (l : List α) :
    (sortSlice (cmpBy key false) l).Pairwise (fun a b => key b ≤ key a) := by
  haveI : IsTotal α (fun a b => ¬ cmpBy key false b a = true) := ⟨fun a b => by
    by_cases h : key b ≤ key a
    · exact Or.inl (by rw [cmpBy_false_iff]; exact not_lt.2 h)
    · exact Or.inr (by rw [cmpBy_false_iff]; exact not_lt.2 (le_of_not_le h))⟩
  haveI : IsTrans α (fun a b => ¬ cmpBy key false b a = true) :=
    ⟨fun a b c hab hbc => by
      rw [cmpBy_false_iff] at hab hbc ⊢
      exact not_lt.2 (le_trans (not_lt.1 hbc) (not_lt.1 hab))⟩
  have hs := List.sorted_insertionSort
    (fun a b => ¬ cmpBy key false b a = true) l
  exact hs.imp (fun h => not_lt.1 (by rwa [cmpBy_false_iff] at h))

/-- With pairwise-distinct keys, sorting ascending twice gives the same
list as sorting once.  The proof uses only the `sort.Slice` contract
(permutation + sortedness): with distinct keys, a list has exactly one
non-decreasing arrangement, so any conforming implementation — stable or
not — must return it both times.  Without the distinctness hypothesis this
is *not* a consequence of the contract (an unstable sort may permute tied
records when re-sorting). -/
theorem sortSlice_asc_idempotent_of_ne (key : α → β) (l : List α)
    (hd : l.Pairwise (fun a b => key a ≠ key b)) :
    sortSlice (cmpBy key true) (sortSlice (cmpBy key true) l) =
      sortSlice (cmpBy key true) l := by
  have hPermA : (sortSlice (cmpBy key true) l).Perm l := sortSlice_perm _ l
  have hPermB : (sortSlice (cmpBy key true)
      (sortSlice (cmpBy key true) l)).Perm (sortSlice (cmpBy key true) l) :=
    sortSlice_perm _ _
  have hAne : (sortSlice (cmpBy key true) l).Pairwise
      (fun a b => key a ≠ key b) :=
    (hPermA.pairwise_iff (fun h => h.symm)).2 hd
  have hBne : (sortSlice (cmpBy key true)
      (sortSlice (cmpBy key true) l)).Pairwise
      (fun a b => key a ≠ key b) :=
    (hPermB.pairwise_iff (fun h => h.symm)).2 hAne
  have hAlt : (sortSlice (cmpBy key true) l).Pairwise
      (fun a b => key a < key b) :=
    ((sortSlice_asc_sorted key l).and hAne).imp
      (fun h => lt_of_le_of_ne h.1 h.2)
  have hBlt : (sortSlice (cmpBy key true)
      (sortSlice (cmpBy key true) l)).Pairwise
      (fun a b => key a < key b) :=
    ((sortSlice_asc_sorted key _).and hBne).imp
      (fun h => lt_of_le_of_ne h.1 h.2)
  haveI : IsAntisymm α (fun a b : α => key a < key b ∨ a = b) := ⟨by
    intro a b h1 h2
    rcases h1 with h1 | h1
    · rcases h2 with h2 | h2
      · exact absurd h2 (lt_asymm h1)
      · exact h2.symm
    · exact h1⟩
  have hBs : (sortSlice (cmpBy key true)
      (sortSlice (cmpBy key true) l)).Sorted
      (fun a b => key a < key b ∨ a = b) :=
    hBlt.imp (fun h => Or.inl h)
  have hAs : (sortSlice (cmpBy key true) l).Sorted
      (fun a b => key a < key b ∨ a = b) :=
    hAlt.imp (fun h => Or.inl h)
  exact List.eq_of_perm_of_sorted hPermB hBs hAs

/-- With pairwise-distinct keys, sorting descending after sorting ascending
yields exactly the reverse of the ascending result. -/
theorem sortSlice_desc_reverse (key : α → β) (l : List α)
    (hd : l.Pairwise (fun a b => key a ≠ key b)) :
    sortSlice (cmpBy key false) (sortSlice (cmpBy key true) l) =
      (sortSlice (cmpBy key true) l).reverse := by
  have hPermA : (sortSlice (cmpBy key true) l).Perm l := sortSlice_perm _ l
  have hPermD : (sortSlice (cmpBy key false)
      (sortSlice (cmpBy key true) l)).Perm (sortSlice (cmpBy key true) l) :=
    sortSlice_perm _ _
  have hAne : (sortSlice (cmpBy key true) l).Pairwise
      (fun a b => key a ≠ key b) :=
    (hPermA.pairwise_iff (fun h => h.symm)).2 hd
  have hDne : (sortSlice (cmpBy key false)
      (sortSlice (cmpBy key true) l)).Pairwise (fun a b => key a ≠ key b) :=
    (hPermD.pairwise_iff (fun h => h.symm)).2 hAne
  have hAlt : (sortSlice (cmpBy key true) l).Pairwise
      (fun a b => key a < key b) :=
    ((sortSlice_asc_sorted key l).and hAne).imp
      (fun h => lt_of_le_of_ne h.1 h.2)
  have hDgt : (sortSlice (cmpBy key false)
      (sortSlice (cmpBy key true) l)).Pairwise
      (fun a b => key b < key a) :=
    ((sortSlice_desc_sorted key _).and hDne).imp
      (fun h => lt_of_le_of_ne h.1 h.2.symm)
  haveI : IsAntisymm α (fun a b : α => key b < key a ∨ a = b) := ⟨by
    intro a b h1 h2
    rcases h1 with h1 | h1
    · rcases h2 with h2 | h2
      · exact absurd h2 (lt_asymm h1)
      · exact h2.symm
    · exact h1⟩
  have hDs : (sortSlice (cmpBy key false)
      (sortSlice (cmpBy key true) l)).Sorted
      (fun a b => key b < key a ∨ a = b) :=
    hDgt.imp (fun h => Or.inl h)
  have hRs : ((sortSlice (cmpBy key true) l).reverse).Sorted
      (fun a b => key b < key a ∨ a = b) :=
    (List.pairwise_reverse.2 hAlt).imp (fun h => Or.inl h)
  exact List.eq_of_perm_of_sorted
    (hPermD.trans (sortSlice (cmpBy key true) l).reverse_perm.symm) hDs hRs

end SortTheory

/-- Distinctness of two records' values on field `i` of kind `k` — the
per-kind key inequality used to state tie-freedom. -/
def fieldKeyNeB (k : Kind) (i : Nat) (r r' : Record) : Bool :=
  match k with
  | .kInt => getIntF r i ≠ getIntF r' i
  | .kUint => getUintF r i ≠ getUintF r' i
  | .kFloat => getFloatF r i ≠ getFloatF r' i
  | .kString => getStringF r i ≠ getStringF r' i
  | .kTime => getTimeF r i ≠ getTimeF r' i
  | .kOther => false

/-! ### Selection support -/

/-- The selected flag of slot `k` of a kids array (`false` for nil or
out-of-range slots). -/
def selectedAt (kids : Kids) (k : Nat) : Bool :=
  match kids.getD k none with
  | some w => w.selected
  | none => false

theorem length_setKidSel (kids : Kids) (j : Int) (b : Bool) :
    (setKidSel kids j b).length = kids.length := by
  unfold setKidSel
  split
  · exact List.length_set kids _ _
  · rfl

theorem getD_setKidSel_ne (kids : Kids) (j : Int) (b : Bool) (k : Nat)
    (h : (k : Int) ≠ j) :
    (setKidSel kids j b).getD k none = kids.getD k none := by
  unfold setKidSel
  split
  · rename_i hj
    have hne : j.toNat ≠ k := by omega
    rw [List.getD_eq_getElem?_getD, List.getElem?_set_ne hne,
      ← List.getD_eq_getElem?_getD]
  · rfl

theorem getD_setKidSel_isSome (kids : Kids) (j : Int) (b : Bool) (k : Nat) :
    ((setKidSel kids j b).getD k none).isSome =
      ((kids.getD k none).isSome) := by
  unfold setKidSel
  split
  · rename_i hj
    by_cases hk : j.toNat = k
    · subst hk
      have hlt : j.toNat < kids.length := by omega
      rw [List.getD_eq_getElem?_getD, List.getElem?_set_self hlt]
      cases hx : kids.getD j.toNat none <;> simp [hx]
    · rw [List.getD_eq_getElem?_getD, List.getElem?_set_ne hk,
        ← List.getD_eq_getElem?_getD]
  · rfl

theorem selectedAt_setKidSel_ne (kids : Kids) (j : Int) (b : Bool) (k : Nat)
    (h : (k : Int) ≠ j) :
    selectedAt (setKidSel kids j b) k = selectedAt kids k := by
  unfold selectedAt
  rw [getD_setKidSel_ne kids j b k h]

theorem selectedAt_setKidSel_self (kids : Kids) (b : Bool) (k : Nat)
    (hk : k < kids.length) :
    selectedAt (setKidSel kids (k : Int) b) k =
      ((kids.getD k none).isSome && b) := by
  unfold setKidSel selectedAt
  rw [if_pos ⟨Int.natCast_nonneg k, by exact_mod_cast hk⟩]
  have ht : ((k : Int)).toNat = k := Int.toNat_natCast k
  rw [ht, List.getD_eq_getElem?_getD, List.getElem?_set_self hk]
  cases hx : kids.getD k none <;> simp [hx]

theorem length_selRowLoop (kids : Kids) (row : Int) (nW : Nat) (b : Bool)
    (n : Nat) : (selRowLoop kids row nW b n).length = kids.length := by
  induction n with
  | zero => rfl
  | succ m ih => rw [selRowLoop, length_setKidSel, ih]

theorem isSome_selRowLoop (kids : Kids) (row : Int) (nW : Nat) (b : Bool)
    (n k : Nat) :
    ((selRowLoop kids row nW b n).getD k none).isSome =
      ((kids.getD k none).isSome) := by
  induction n with
  | zero => rfl
  | succ m ih => rw [selRowLoop, getD_setKidSel_isSome, ih]

theorem selectedAt_selRowLoop_miss (kids : Kids) (row : Int) (nW : Nat)
    (b : Bool) (n k : Nat)
    (h : ∀ fli, fli < n → row * (nW : Int) + 1 + (fli : Int) ≠ (k : Int)) :
    selectedAt (selRowLoop kids row nW b n) k = selectedAt kids k := by
  induction n with
  | zero => rfl
  | succ m ih =>
      rw [selRowLoop,
        selectedAt_setKidSel_ne _ _ _ _ (Ne.symm (h m (Nat.lt_succ_self m))),
        ih (fun fli hf => h fli (Nat.lt_succ_of_lt hf))]

theorem selectedAt_selRowLoop_hit (kids : Kids) (row : Int) (nW : Nat)
    (b : Bool) (n k fli : Nat) (hfli : fli < n)
    (heq : row * (nW : Int) + 1 + (fli : Int) = (k : Int))
    (hk : k < kids.length) :
    selectedAt (selRowLoop kids row nW b n) k =
      ((kids.getD k none).isSome && b) := by
  induction n with
  | zero => omega
  | succ m ih =>
      rw [selRowLoop]
      by_cases hm : fli = m
      · subst hm
        rw [heq, selectedAt_setKidSel_self _ _ _
            (by rw [length_selRowLoop]; exact hk),
          isSome_selRowLoop]
      · have hne : (k : Int) ≠ row * (nW : Int) + 1 + (m : Int) := by
          intro hcon
          rw [← heq] at hcon
          have hfm : (fli : Int) = (m : Int) := by linarith
          exact hm (by exact_mod_cast hfm)
        rw [selectedAt_setKidSel_ne _ _ _ _ hne]
        exact ih (lt_of_le_of_ne (Nat.lt_succ_iff.1 hfli) hm)

/-- Row-major slot decomposition is unique: with `nW = nfld + 1` and field
offsets below `nfld`, equal slot indices force equal rows and equal field
offsets. -/
theorem slot_decomp_unique {nfld r s fli gli : Nat} (hf : fli < nfld)
    (hg : gli < nfld)
    (h : r * (nfld + 1) + 1 + fli = s * (nfld + 1) + 1 + gli) :
    r = s ∧ fli = gli := by
  have h' : r * (nfld + 1) + fli = s * (nfld + 1) + gli := by omega
  rcases Nat.lt_trichotomy r s with hlt | hrs | hlt
  · exfalso
    have h2 : (r + 1) * (nfld + 1) ≤ s * (nfld + 1) :=
      Nat.mul_le_mul_right _ hlt
    have h3 : r * (nfld + 1) + (nfld + 1) = (r + 1) * (nfld + 1) := by ring
    linarith
  · refine ⟨hrs, ?_⟩
    subst hrs
    exact Nat.add_left_cancel h'
  · exfalso
    have h2 : (s + 1) * (nfld + 1) ≤ r * (nfld + 1) :=
      Nat.mul_le_mul_right _ hlt
    have h3 : s * (nfld + 1) + (nfld + 1) = (s + 1) * (nfld + 1) := by ring
    linarith

/-- A value-widget slot of an in-range row lies inside the
`nW * rows` kids array. -/
theorem slot_lt {nfld r sz fli : Nat} (hr : r < sz) (hf : fli < nfld) :
    r * (nfld + 1) + 1 + fli < (nfld + 1) * sz := by
  have h1 : (r + 1) * (nfld + 1) ≤ sz * (nfld + 1) :=
    Nat.mul_le_mul_right _ hr
  have h2 : r * (nfld + 1) + (nfld + 1) = (r + 1) * (nfld + 1) := by ring
  have h3 : sz * (nfld + 1) = (nfld + 1) * sz := by ring
  linarith

/-- The at-most-one-selected-row invariant, as a decidable Bool check:
every selected slot of the kids array is a value-widget slot of row
`selectedIdx` (in particular `selectedIdx` is a real row whenever anything
is selected). -/
def SelInvB (s : StructTableView) : Bool :=
  (List.range s.kids.length).all fun k =>
    !(selectedAt s.kids k) ||
      (decide (0 ≤ s.selectedIdx) &&
        (List.range (struTypOf s).length).any fun fli =>
          decide ((k : Int) =
            s.selectedIdx * (((struTypOf s).length + 1 : Nat) : Int) + 1 +
              (fli : Int)))

/-- The selection invariant as a proposition. -/
def SelInv (s : StructTableView) : Prop := SelInvB s = true

instance (s : StructTableView) : Decidable (SelInv s) := by
  unfold SelInv
  infer_instance

/-- `SelInv` unfolded to its quantifier form. -/
theorem selInv_iff (s : StructTableView) :
    SelInv s ↔ ∀ k, k < s.kids.length → selectedAt s.kids k = true →
      0 ≤ s.selectedIdx ∧ ∃ fli, fli < (struTypOf s).length ∧
        (k : Int) =
          s.selectedIdx * (((struTypOf s).length + 1 : Nat) : Int) + 1 +
            (fli : Int) := by
  unfold SelInv SelInvB
  rw [List.all_eq_true]
  constructor
  · intro h k hk hsel
    have h2 := h k (List.mem_range.2 hk)
    simp only [Bool.or_eq_true, Bool.not_eq_true', Bool.and_eq_true,
      decide_eq_true_eq, List.any_eq_true, List.mem_range] at h2
    rcases h2 with h2 | ⟨h2, fli, hf, he⟩
    · rw [hsel] at h2
      cases h2
    · exact ⟨h2, fli, hf, he⟩
  · intro h k hkmem
    simp only [Bool.or_eq_true, Bool.not_eq_true', Bool.and_eq_true,
      decide_eq_true_eq, List.any_eq_true, List.mem_range]
    cases hx : selectedAt s.kids k with
    | false => exact Or.inl rfl
    | true =>
        obtain ⟨h2, fli, hf, he⟩ := h k (List.mem_range.1 hkmem) hx
        exact Or.inr ⟨h2, fli, hf, he⟩

/-- The clear phase of `UpdateSelect`: when a row is currently selected,
clear the selected flags of its value widgets. -/
def clearPhase (kids : Kids) (selIdx : Int) (nfld : Nat) : Kids :=
  if 0 ≤ selIdx then selRowLoop kids selIdx (nfld + 1) false nfld else kids

/-- `UpdateSelect` with `sel = true`, written out: clear phase, then select
row `idx` and emit it. -/
theorem updateSelect_true_def (s : StructTableView) (idx : Int) :
    UpdateSelect s idx true =
      ({ s with
          selectedIdx := idx
          kids := selRowLoop
            (clearPhase s.kids s.selectedIdx (struTypOf s).length) idx
            ((struTypOf s).length + 1) true (struTypOf s).length }, idx) :=
  rfl

/-- `UpdateSelect` with `sel = false`, written out: clear phase, reset the
selection index, emit -1. -/
theorem updateSelect_false_def (s : StructTableView) (idx : Int) :
    UpdateSelect s idx false =
      ({ s with
          selectedIdx := -1
          kids := clearPhase s.kids s.selectedIdx (struTypOf s).length },
        -1) :=
  rfl

theorem clearPhase_of_nonneg (kids : Kids) (selIdx : Int) (nfld : Nat)
    (h : 0 ≤ selIdx) :
    clearPhase kids selIdx nfld = selRowLoop kids selIdx (nfld + 1) false nfld :=
  if_pos h

theorem length_clearPhase (kids : Kids) (selIdx : Int) (nfld : Nat) :
    (clearPhase kids selIdx nfld).length = kids.length := by
  unfold clearPhase
  split
  · exact length_selRowLoop _ _ _ _ _
  · rfl

theorem isSome_clearPhase (kids : Kids) (selIdx : Int) (nfld : Nat)
    (k : Nat) :
    ((clearPhase kids selIdx nfld).getD k none).isSome =
      ((kids.getD k none).isSome) := by
  unfold clearPhase
  split
  · exact isSome_selRowLoop _ _ _ _ _ _
  · rfl

/-- If every selected slot belongs to row `selIdx`, the clear phase leaves
nothing selected at all. -/
theorem selectedAt_clearPhase (kids : Kids) (selIdx : Int) (nfld : Nat)
    (hgood : ∀ k, k < kids.length → selectedAt kids k = true →
      0 ≤ selIdx ∧ ∃ fli, fli < nfld ∧
        (k : Int) = selIdx * ((nfld + 1 : Nat) : Int) + 1 + (fli : Int))
    (k : Nat) (hk : k < kids.length) :
    selectedAt (clearPhase kids selIdx nfld) k = false := by
  unfold clearPhase
  by_cases hsel : 0 ≤ selIdx
  · rw [if_pos hsel]
    by_cases hrow : ∃ fli, fli < nfld ∧
        selIdx * ((nfld + 1 : Nat) : Int) + 1 + (fli : Int) = (k : Int)
    · obtain ⟨fli, hf, he⟩ := hrow
      rw [selectedAt_selRowLoop_hit _ _ _ _ _ _ fli hf he hk]
      simp
    · push_neg at hrow
      rw [selectedAt_selRowLoop_miss _ _ _ _ _ _ hrow]
      cases hx : selectedAt kids k with
      | false => rfl
      | true =>
          obtain ⟨_, fli, hf, he⟩ := hgood k hk hx
          exact absurd he.symm (hrow fli hf)
  · rw [if_neg hsel]
    cases hx : selectedAt kids k with
    | false => rfl
    | true => exact absurd (hgood k hk hx).1 hsel

/-- `UpdateSelect` preserves the at-most-one-selected-row invariant for
every row index and selection flag. -/
theorem updateSelect_preserves_selInv (s : StructTableView) (hInv : SelInv s)
    (idx : Int) (sel : Bool) (hidx : 0 ≤ idx) :
    SelInv (UpdateSelect s idx sel).1 := by
  have hgood := (selInv_iff s).1 hInv
  cases sel
  · rw [updateSelect_false_def, selInv_iff]
    dsimp only
    intro k hk htrue
    rw [length_clearPhase] at hk
    rw [selectedAt_clearPhase s.kids s.selectedIdx (struTypOf s).length
      hgood k hk] at htrue
    cases htrue
  · rw [updateSelect_true_def, selInv_iff]
    dsimp only
    intro k hk htrue
    rw [length_selRowLoop, length_clearPhase] at hk
    refine ⟨hidx, ?_⟩
    by_cases hrow : ∃ fli, fli < (struTypOf s).length ∧
        idx * (((struTypOf s).length + 1 : Nat) : Int) + 1 + (fli : Int) =
          (k : Int)
    · obtain ⟨fli, hf, he⟩ := hrow
      exact ⟨fli, hf, he.symm⟩
    · exfalso
      push_neg at hrow
      rw [selectedAt_selRowLoop_miss _ _ _ _ _ _ hrow,
        selectedAt_clearPhase s.kids s.selectedIdx (struTypOf s).length
          hgood k hk] at htrue
      cases htrue

/-! ## Claim theorems -/

/-- Claim C1 (code bug witness): `SliceNewAt 0` on the one-element sequence
`[{5}]` appends the zero record instead of inserting it at index 0: the
guard `idx < sz-1` excludes `idx = len-1`, so the result is `[{5},{0}]`
rather than the `[{0},{5}]` the claim (and the function's own doc comment)
describes. -/
theorem sliceNewAt_eval_at_penultimate_index :
    SliceNewAt [Kind.kInt] [[Val.vInt 5]] 0 = [[Val.vInt 5], [Val.vInt 0]] ∧
      ([[Val.vInt 5], [Val.vInt 0]] : List Record) ≠
        [[Val.vInt 0], [Val.vInt 5]] := by
  decide

/-- A concrete table state for exercising `SortSliceAction`: two two-field
records, currently sorted descending on field 0. -/
def sortActionState : StructTableView :=
  { slice := some ⟨0, true, true, true, [Kind.kInt, Kind.kInt],
      [[Val.vInt 1, Val.vInt 10], [Val.vInt 2, Val.vInt 20]]⟩
    seq := [[Val.vInt 1, Val.vInt 10], [Val.vInt 2, Val.vInt 20]]
    tmpSave := none
    selectedIdx := -1
    sortIdx := 0
    sortDesc := true
    builtId := some 0
    builtSize := 2
    inactive := true
    hasGrid := true
    kids := List.replicate 6 none
    headerIcons := ["", ""]
    valuesDims := (2, 2) }

/-- Claim C2 (code bug witness): activating header field 1 while the table
is sorted descending on field 0 sorts field 1 *descending* (the `SortDesc`
flag is never reset for a new field, and the sort call uses `!SortDesc`
rather than the local `ascending`), while simultaneously displaying the
ascending sort icon on that header — the claim (and the icon) say
ascending. -/
theorem sortSliceAction_eval_keeps_old_direction :
    (SortSliceAction sortActionState 1).seq =
        [[Val.vInt 2, Val.vInt 20], [Val.vInt 1, Val.vInt 10]] ∧
      (SortSliceAction sortActionState 1).sortDesc = true ∧
      (SortSliceAction sortActionState 1).headerIcons =
        ["none", "widget-wedge-up"] := by
  decide

/-- Claim C3 (counterexample): with the clearly out-of-range index `-5`,
`SliceNewAt` silently appends a zero record — the sequence is mutated and
no error is produced — and `SliceDelete` panics on its out-of-range
`reflect.Slice` bounds (modelled `none`) instead of returning an error
value. -/
theorem sliceOps_out_of_range_counterexample :
    SliceNewAt [Kind.kInt] [[Val.vInt 5]] (-5) ≠ [[Val.vInt 5]] ∧
      SliceDelete [Kind.kInt] [[Val.vInt 5]] (-5) = none := by
  decide

/-- Claim C3 (amended): neither function validates its index or returns an
error: `SliceNewAt` treats every index outside `[0, len-2]` — including
every out-of-range index — as an append of the zero record (mutating the
sequence), and `SliceDelete` with an index outside `[0, len-1]` panics
(modelled `none`) rather than reporting an error. -/
theorem sliceOps_out_of_range_behavior (struTyp : List Kind)
    (seq : List Record) (idx : Int) :
    (¬(0 ≤ idx ∧ idx < (seq.length : Int) - 1) →
        SliceNewAt struTyp seq idx = seq ++ [zeroRec struTyp]) ∧
      (¬(0 ≤ idx ∧ idx < (seq.length : Int)) →
        SliceDelete struTyp seq idx = none) := by
  constructor <;> intro h
  · simp only [SliceNewAt, if_neg h]
  · simp only [SliceDelete, if_neg h]

/-- Witness for `sliceOps_out_of_range_behavior` at the concrete index 5 on
a one-element sequence. -/
theorem sliceOps_out_of_range_behavior_witness :
    SliceNewAt [Kind.kInt] [[Val.vInt 7]] 5 = [[Val.vInt 7], [Val.vInt 0]] ∧
      SliceDelete [Kind.kInt] [[Val.vInt 7]] 5 = none := by
  have h := sliceOps_out_of_range_behavior [Kind.kInt] [[Val.vInt 7]] 5
  exact ⟨(h.1 (by decide)).trans (by decide), h.2 (by decide)⟩

/-- Claim C4: `SortStructSlice` returns a non-nil error exactly when the
field index is out of range or the field's kind is unsortable, and on every
error path the sequence is returned untouched. -/
theorem sortStructSlice_error_iff (struTyp : List Kind) (seq : List Record)
    (fldIdx : Int) (ascending : Bool) :
    ((SortStructSlice struTyp seq fldIdx ascending).1 ≠ none ↔
        ¬ validSortField struTyp fldIdx) ∧
      (¬ validSortField struTyp fldIdx →
        (SortStructSlice struTyp seq fldIdx ascending).2 = seq) := by
  constructor
  · constructor
    · intro hne hv
      exact hne (sortStructSlice_fst_of_valid hv)
    · intro hv
      exact (sortStructSlice_of_invalid hv).1
  · intro hv
    exact (sortStructSlice_of_invalid hv).2

/-- Witness for `sortStructSlice_error_iff`: the unsortable-kind error path
leaves the concrete sequence untouched. -/
theorem sortStructSlice_error_iff_witness :
    (SortStructSlice [Kind.kOther] [[Val.vOther 3]] 0 true).2 =
      [[Val.vOther 3]] :=
  (sortStructSlice_error_iff [Kind.kOther] [[Val.vOther 3]] 0 true).2
    (by decide)

/-- A concrete table state with live sort state (field 2, descending) and a
selection, bound to slice identity 0. -/
def boundState : StructTableView :=
  { slice := some ⟨0, true, true, true, [Kind.kInt], [[Val.vInt 1]]⟩
    seq := [[Val.vInt 1]]
    tmpSave := none
    selectedIdx := 0
    sortIdx := 2
    sortDesc := true
    builtId := some 0
    builtSize := 1
    inactive := true
    hasGrid := true
    kids := []
    headerIcons := [""]
    valuesDims := (1, 1) }

/-- A non-pointer value handed to `SetSlice` (identity 1, differing from
the bound slice). -/
def badInput : SliceRef := ⟨1, false, false, false, [], []⟩

/-- Claim C5 (counterexample): handing `SetSlice` a non-pointer value
clobbers the prior sort state: the sort field index 2 becomes -1 and the
descending flag is cleared, because the sort-state reset happens before the
shape validation. -/
theorem setSlice_abort_clobbers_sort_state :
    boundState.sortIdx = 2 ∧ boundState.sortDesc = true ∧
      (SetSlice boundState badInput none).sortIdx = -1 ∧
      (SetSlice boundState badInput none).sortDesc = false := by
  decide

/-- Claim C5 (amended): on a failed binding with a new slice identity, the
bound slice and the selection index are preserved, but the sort field index
and sort direction are unconditionally reset to (-1, ascending) before
validation; and when only the element-struct check fails, the bound slice
reference and contents have additionally already been replaced. -/
theorem setSlice_abort_state (s : StructTableView) (sl : SliceRef)
    (ts : Option Nat) (hid : s.slice.map SliceRef.id ≠ some sl.id) :
    (sl.isPtr = false ∨ sl.ptrToSlice = false →
        SetSlice s sl ts = { s with sortIdx := -1, sortDesc := false }) ∧
      (sl.isPtr = true → sl.ptrToSlice = true → sl.elemIsStruct = false →
        SetSlice s sl ts =
          { s with
              sortIdx := -1
              sortDesc := false
              slice := some sl
              seq := sl.contents }) := by
  constructor
  · rintro (h | h)
    · unfold SetSlice
      rw [if_pos hid]
      simp [h]
    · unfold SetSlice
      rw [if_pos hid]
      cases hp : sl.isPtr <;> simp [h, hp]
  · intro h1 h2 h3
    unfold SetSlice
    rw [if_pos hid]
    simp [h1, h2, h3]

/-- Witness for `setSlice_abort_state` on the concrete bound state and
non-pointer input. -/
theorem setSlice_abort_state_witness :
    SetSlice boundState badInput none =
      { boundState with sortIdx := -1, sortDesc := false } :=
  (setSlice_abort_state boundState badInput none (by decide)).1
    (Or.inl (by decide))

/-- Claim C9: for every in-range index, `SliceDelete` removes exactly the
record at that index (the remaining records keep their relative order) and
shrinks the sequence by one. -/
theorem sliceDelete_removes_at_index (struTyp : List Kind)
    (seq : List Record) (idx : Nat) (h : idx < seq.length) :
    SliceDelete struTyp seq (idx : Int) = some (seq.eraseIdx idx) ∧
      (seq.eraseIdx idx).length = seq.length - 1 := by
  constructor
  · unfold SliceDelete
    rw [if_pos ⟨Int.natCast_nonneg idx, by exact_mod_cast h⟩]
    have hi : ((idx : Int)).toNat = idx := Int.toNat_natCast idx
    rw [hi, List.eraseIdx_eq_take_drop_succ]
    have hlen2 : (seq.take idx ++ seq.drop (idx + 1)).length =
        seq.length - 1 := by
      simp only [List.length_append, List.length_take, List.length_drop]
      omega
    rw [← hlen2, List.take_left]
  · rw [List.length_eraseIdx, if_pos h]

/-- Witness for `sliceDelete_removes_at_index`: deleting index 0 of a
two-element sequence. -/
theorem sliceDelete_removes_at_index_witness :
    SliceDelete [Kind.kInt] [[Val.vInt 5], [Val.vInt 6]] 0 =
        some [[Val.vInt 6]] ∧
      ([[Val.vInt 5], [Val.vInt 6]] : List Record).eraseIdx 0 =
        [[Val.vInt 6]] := by
  have h := sliceDelete_removes_at_index [Kind.kInt]
    [[Val.vInt 5], [Val.vInt 6]] 0 (by decide)
  exact ⟨h.1.trans (by decide), by decide⟩

/-- Claim C10: a deselect call always resets the selection index to -1 (and
emits -1), regardless of which index is passed and of the current
selection. -/
theorem updateSelect_deselect_clears_index (s : StructTableView)
    (idx : Int) :
    ((UpdateSelect s idx false).1).selectedIdx = -1 ∧
      (UpdateSelect s idx false).2 = -1 := by
  simp [UpdateSelect]

/-- A rebuild is skipped entirely when the cache key (slice identity,
length) matches: `ConfigSliceGrid` returns the state unchanged. -/
theorem configSliceGrid_cache_hit (s : StructTableView) (sl : SliceRef)
    (h : s.slice = some sl)
    (hc : s.builtId = some sl.id ∧ s.builtSize = (s.seq.length : Int)) :
    ConfigSliceGrid s = s := by
  simp [ConfigSliceGrid, h, hc.1, hc.2]

/-- After any `ConfigSliceGrid` call on a bound slice, the slice reference
is unchanged and the rebuild cache key matches the current state. -/
theorem configSliceGrid_establishes_cache (s : StructTableView)
    (sl : SliceRef) (h : s.slice = some sl) :
    (ConfigSliceGrid s).slice = some sl ∧
      (ConfigSliceGrid s).builtId = some sl.id ∧
      (ConfigSliceGrid s).builtSize = (s.seq.length : Int) ∧
      (ConfigSliceGrid s).seq.length = s.seq.length := by
  by_cases hc : s.builtId = some sl.id ∧ s.builtSize = (s.seq.length : Int)
  · rw [configSliceGrid_cache_hit s sl h hc]
    exact ⟨h, hc.1, hc.2, rfl⟩
  · unfold ConfigSliceGrid
    simp only [h]
    rw [if_neg hc]
    by_cases hg : s.hasGrid <;>
      simp [hg] <;>
      split <;>
      simp [sortStructSlice_length]

/-- Claim C7: a second `ConfigSliceGrid` immediately after a first one is a
no-op: the cache key (slice identity, length) established by the first call
matches, so the second call returns the state untouched — no widget-table,
value-view-cache or selection/sort state change. -/
theorem configSliceGrid_idempotent (s : StructTableView) :
    ConfigSliceGrid (ConfigSliceGrid s) = ConfigSliceGrid s := by
  cases h : s.slice with
  | none =>
      have h1 : ConfigSliceGrid s = s := by simp [ConfigSliceGrid, h]
      rw [h1]
      exact h1
  | some sl =>
      obtain ⟨f1, f2, f3, f4⟩ := configSliceGrid_establishes_cache s sl h
      refine configSliceGrid_cache_hit _ sl f1 ⟨f2, ?_⟩
      rw [f4]
      exact f3

/-- Claim C8: on a fully built browse-mode grid whose state satisfies the
at-most-one-selected-row invariant, (a) every `UpdateSelect` call emits
exactly the new selection index, (b) selecting row `i` then row `j ≠ i`
leaves row `j`'s widgets all selected, row `i`'s widgets all unselected,
and every selected slot inside row `j` (exactly one selected row), (c)
selecting `i` then deselecting `i` leaves the index at none and no slot
selected, and (d) every call with a row index preserves the invariant. -/
theorem updateSelect_selection_invariant (s : StructTableView) (i j : Nat)
    (hInv : SelInv s)
    (hsome : ∀ k, k < s.kids.length → (s.kids.getD k none).isSome = true)
    (hlen : s.kids.length = ((struTypOf s).length + 1) * s.seq.length)
    (hi : i < s.seq.length) (hj : j < s.seq.length) (hij : i ≠ j) :
    (∀ idx sel, (UpdateSelect s idx sel).2 =
        ((UpdateSelect s idx sel).1).selectedIdx) ∧
      ((UpdateSelect ((UpdateSelect s (i : Int) true).1) (j : Int)
          true).1).selectedIdx = (j : Int) ∧
      (∀ fli, fli < (struTypOf s).length →
        selectedAt ((UpdateSelect ((UpdateSelect s (i : Int) true).1)
            (j : Int) true).1).kids
          (j * ((struTypOf s).length + 1) + 1 + fli) = true) ∧
      (∀ fli, fli < (struTypOf s).length →
        selectedAt ((UpdateSelect ((UpdateSelect s (i : Int) true).1)
            (j : Int) true).1).kids
          (i * ((struTypOf s).length + 1) + 1 + fli) = false) ∧
      (∀ k, k < ((UpdateSelect ((UpdateSelect s (i : Int) true).1) (j : Int)
            true).1).kids.length →
        selectedAt ((UpdateSelect ((UpdateSelect s (i : Int) true).1)
            (j : Int) true).1).kids k = true →
        ∃ fli, fli < (struTypOf s).length ∧
          k = j * ((struTypOf s).length + 1) + 1 + fli) ∧
      ((UpdateSelect ((UpdateSelect s (i : Int) true).1) (i : Int)
          false).1).selectedIdx = -1 ∧
      (∀ k, k < ((UpdateSelect ((UpdateSelect s (i : Int) true).1) (i : Int)
            false).1).kids.length →
        selectedAt ((UpdateSelect ((UpdateSelect s (i : Int) true).1)
            (i : Int) false).1).kids k = false) ∧
      (∀ idx sel, 0 ≤ idx → SelInv ((UpdateSelect s idx sel).1)) := by
  have hin : (0 : Int) ≤ (i : Int) := Int.natCast_nonneg i
  have hjn : (0 : Int) ≤ (j : Int) := Int.natCast_nonneg j
  have hs1inv : SelInv ((UpdateSelect s (i : Int) true).1) :=
    updateSelect_preserves_selInv s hInv _ true hin
  have hs1 : (UpdateSelect s (i : Int) true).1 =
      { s with
          selectedIdx := (i : Int)
          kids := selRowLoop
            (clearPhase s.kids s.selectedIdx (struTypOf s).length) (i : Int)
            ((struTypOf s).length + 1) true (struTypOf s).length } := rfl
  have hs1lenk : ((UpdateSelect s (i : Int) true).1).kids.length =
      s.kids.length := by
    rw [hs1]
    dsimp only
    rw [length_selRowLoop, length_clearPhase]
  have hs1some : ∀ k,
      ((((UpdateSelect s (i : Int) true).1).kids.getD k none)).isSome =
        ((s.kids.getD k none)).isSome := by
    intro k
    rw [hs1]
    dsimp only
    rw [isSome_selRowLoop, isSome_clearPhase]
  have hsty1 : struTypOf ((UpdateSelect s (i : Int) true).1) =
      struTypOf s := rfl
  have hclear1 : clearPhase ((UpdateSelect s (i : Int) true).1).kids
      ((UpdateSelect s (i : Int) true).1).selectedIdx
      (struTypOf s).length =
      selRowLoop ((UpdateSelect s (i : Int) true).1).kids (i : Int)
        ((struTypOf s).length + 1) false (struTypOf s).length := by
    have hsel1 : ((UpdateSelect s (i : Int) true).1).selectedIdx =
        (i : Int) := rfl
    rw [hsel1]
    exact clearPhase_of_nonneg _ _ _ hin
  have hs2kids : ((UpdateSelect ((UpdateSelect s (i : Int) true).1) (j : Int)
        true).1).kids =
      selRowLoop (selRowLoop ((UpdateSelect s (i : Int) true).1).kids
          (i : Int) ((struTypOf s).length + 1) false (struTypOf s).length)
        (j : Int) ((struTypOf s).length + 1) true (struTypOf s).length := by
    conv_lhs => rw [updateSelect_true_def]
    dsimp only
    rw [hsty1, hclear1]
  have hs3kids : ((UpdateSelect ((UpdateSelect s (i : Int) true).1) (i : Int)
        false).1).kids =
      selRowLoop ((UpdateSelect s (i : Int) true).1).kids (i : Int)
        ((struTypOf s).length + 1) false (struTypOf s).length := by
    conv_lhs => rw [updateSelect_false_def]
    dsimp only
    rw [hsty1, hclear1]
  refine ⟨?_, rfl, ?_, ?_, ?_, rfl, ?_, ?_⟩
  · intro idx sel
    cases sel <;> rfl
  · -- row j fully selected after select i; select j
    intro fli hf
    rw [hs2kids]
    have heq : (j : Int) * (((struTypOf s).length + 1 : Nat) : Int) + 1 +
        (fli : Int) =
        ((j * ((struTypOf s).length + 1) + 1 + fli : Nat) : Int) := by
      push_cast
      ring
    have hklt : j * ((struTypOf s).length + 1) + 1 + fli <
        (selRowLoop ((UpdateSelect s (i : Int) true).1).kids (i : Int)
          ((struTypOf s).length + 1) false (struTypOf s).length).length := by
      rw [length_selRowLoop, hs1lenk, hlen]
      exact slot_lt hj hf
    rw [selectedAt_selRowLoop_hit _ _ _ _ _ _ fli hf heq hklt,
      Bool.and_true, isSome_selRowLoop, hs1some]
    apply hsome
    rw [hlen]
    exact slot_lt hj hf
  · -- row i fully unselected after select i; select j
    intro fli hf
    rw [hs2kids]
    have hmiss : ∀ gli, gli < (struTypOf s).length →
        (j : Int) * (((struTypOf s).length + 1 : Nat) : Int) + 1 +
          (gli : Int) ≠
        ((i * ((struTypOf s).length + 1) + 1 + fli : Nat) : Int) := by
      intro gli hg hcon
      push_cast at hcon
      have hcon2 : j * ((struTypOf s).length + 1) + 1 + gli =
          i * ((struTypOf s).length + 1) + 1 + fli := by
        exact_mod_cast hcon
      exact hij ((slot_decomp_unique hg hf hcon2).1).symm
    rw [selectedAt_selRowLoop_miss _ _ _ _ _ _ hmiss]
    have heq : (i : Int) * (((struTypOf s).length + 1 : Nat) : Int) + 1 +
        (fli : Int) =
        ((i * ((struTypOf s).length + 1) + 1 + fli : Nat) : Int) := by
      push_cast
      ring
    have hklt : i * ((struTypOf s).length + 1) + 1 + fli <
        ((UpdateSelect s (i : Int) true).1).kids.length := by
      rw [hs1lenk, hlen]
      exact slot_lt hi hf
    rw [selectedAt_selRowLoop_hit _ _ _ _ _ _ fli hf heq hklt,
      Bool.and_false]
  · -- every selected slot after select i; select j lies in row j
    intro k hk htrue
    have hs2inv : SelInv ((UpdateSelect ((UpdateSelect s (i : Int) true).1)
        (j : Int) true).1) :=
      updateSelect_preserves_selInv _ hs1inv _ true hjn
    have hgood2 := (selInv_iff _).1 hs2inv k hk htrue
    have hsel2 : ((UpdateSelect ((UpdateSelect s (i : Int) true).1) (j : Int)
        true).1).selectedIdx = (j : Int) := rfl
    have hsty2 : struTypOf ((UpdateSelect ((UpdateSelect s (i : Int)
        true).1) (j : Int) true).1) = struTypOf s := rfl
    rw [hsel2, hsty2] at hgood2
    obtain ⟨_, fli, hf, he⟩ := hgood2
    refine ⟨fli, hf, ?_⟩
    push_cast at he
    exact_mod_cast he
  · -- select i then deselect i leaves nothing selected
    intro k hk
    rw [hs3kids] at hk ⊢
    rw [length_selRowLoop] at hk
    have hgood1 := (selInv_iff _).1 hs1inv
    rw [hsty1] at hgood1
    have hc := selectedAt_clearPhase ((UpdateSelect s (i : Int) true).1).kids
      ((UpdateSelect s (i : Int) true).1).selectedIdx
      (struTypOf s).length hgood1 k hk
    rw [hclear1] at hc
    exact hc
  · intro idx sel hidx
    exact updateSelect_preserves_selInv s hInv idx sel hidx

/-- A concrete fully built browse-mode table state: one int field, two
rows, four widget slots, nothing selected. -/
def selState : StructTableView :=
  { slice := some ⟨0, true, true, true, [Kind.kInt],
      [[Val.vInt 1], [Val.vInt 2]]⟩
    seq := [[Val.vInt 1], [Val.vInt 2]]
    tmpSave := none
    selectedIdx := -1
    sortIdx := -1
    sortDesc := false
    builtId := some 0
    builtSize := 2
    inactive := true
    hasGrid := true
    kids := [some ⟨"index-00000", "00000", false⟩,
      some ⟨"value-0.00000", "1", false⟩,
      some ⟨"index-00001", "00001", false⟩,
      some ⟨"value-0.00001", "2", false⟩]
    headerIcons := ["none"]
    valuesDims := (1, 2) }

/-- Witness for `updateSelect_selection_invariant` on `selState` with rows
0 and 1: after selecting 0 then 1, slot 3 (row 1's value widget) is
selected and slot 1 (row 0's value widget) is not; deselecting resets the
index. -/
theorem updateSelect_selection_invariant_witness :
    selectedAt ((UpdateSelect ((UpdateSelect selState (0 : Int) true).1)
        (1 : Int) true).1).kids 3 = true ∧
      selectedAt ((UpdateSelect ((UpdateSelect selState (0 : Int) true).1)
          (1 : Int) true).1).kids 1 = false ∧
      ((UpdateSelect ((UpdateSelect selState (0 : Int) true).1) (0 : Int)
          false).1).selectedIdx = -1 := by
  have h := updateSelect_selection_invariant selState 0 1 (by decide)
    (by decide) (by decide) (by decide) (by decide) (by decide)
  exact ⟨h.2.2.1 0 (by decide), h.2.2.2.1 0 (by decide), h.2.2.2.2.2.1⟩

/-- Claim C6 (counterexample): with a tie on the sorted field between two
distinct records, sorting ascending and then descending does *not* produce
the exact reverse of the ascending order (neither in the model nor in Go,
whose insertion sort never swaps tied elements of a 2-element slice). -/
theorem sort_desc_not_exact_reverse_counterexample :
    ((SortStructSlice [Kind.kInt, Kind.kInt]
        (SortStructSlice [Kind.kInt, Kind.kInt]
          [[Val.vInt 1, Val.vInt 7], [Val.vInt 1, Val.vInt 8]] 0 true).2
        0 false).2) ≠
      ((SortStructSlice [Kind.kInt, Kind.kInt]
        [[Val.vInt 1, Val.vInt 7], [Val.vInt 1, Val.vInt 8]] 0 true).2).reverse := by
  decide

/-- Claim C6 (amended): for every valid sortable field, sorting keeps the
multiset of records (permutation); and provided the field's values are
pairwise distinct across the sequence (no ties), sorting ascending twice
equals sorting ascending once, and sorting descending after ascending
yields the exact reverse of the ascending result.  With ties between
distinct records neither equality is guaranteed by the unstable
`sort.Slice` (tie order is implementation-defined); the exact-reverse part
demonstrably fails (see the counterexample theorem). -/
theorem sortStructSlice_reverse_and_idempotent (struTyp : List Kind)
    (seq : List Record) (fldIdx : Int)
    (hv : validSortField struTyp fldIdx) :
    ((SortStructSlice struTyp seq fldIdx true).2.Perm seq) ∧
      (seq.Pairwise (fun r r' =>
          fieldKeyNeB (struTyp.getD fldIdx.toNat Kind.kOther) fldIdx.toNat
            r r' = true) →
        ((SortStructSlice struTyp (SortStructSlice struTyp seq fldIdx
            true).2 fldIdx true).2 =
          (SortStructSlice struTyp seq fldIdx true).2) ∧
          (SortStructSlice struTyp (SortStructSlice struTyp seq fldIdx
              true).2 fldIdx false).2 =
            (SortStructSlice struTyp seq fldIdx true).2.reverse) := by
  obtain ⟨h0, h1, hsk⟩ := hv
  have hcond : ¬(fldIdx < 0 ∨ (struTyp.length : Int) ≤ fldIdx) := by omega
  unfold SortStructSlice
  simp only [if_neg hcond]
  rcases hk : struTyp.getD fldIdx.toNat Kind.kOther <;>
    simp only [hk] at hsk ⊢
  case kOther => exact absurd hsk (by decide)
  all_goals
    exact ⟨sortSlice_perm _ _, fun hd =>
      ⟨sortSlice_asc_idempotent_of_ne _ _
          (hd.imp (fun h => by simpa [fieldKeyNeB] using h)),
        sortSlice_desc_reverse _ _
          (hd.imp (fun h => by simpa [fieldKeyNeB] using h))⟩⟩

/-- Witness for `sortStructSlice_reverse_and_idempotent` on a concrete
three-record sequence with distinct keys. -/
theorem sortStructSlice_reverse_witness :
    ((SortStructSlice [Kind.kInt]
        [[Val.vInt 2], [Val.vInt 1], [Val.vInt 3]] 0 true).2.Perm
      [[Val.vInt 2], [Val.vInt 1], [Val.vInt 3]]) ∧
      ((SortStructSlice [Kind.kInt]
          (SortStructSlice [Kind.kInt]
            [[Val.vInt 2], [Val.vInt 1], [Val.vInt 3]] 0 true).2 0 true).2 =
        (SortStructSlice [Kind.kInt]
          [[Val.vInt 2], [Val.vInt 1], [Val.vInt 3]] 0 true).2) ∧
      ((SortStructSlice [Kind.kInt]
          (SortStructSlice [Kind.kInt]
            [[Val.vInt 2], [Val.vInt 1], [Val.vInt 3]] 0 true).2 0 false).2 =
        (SortStructSlice [Kind.kInt]
          [[Val.vInt 2], [Val.vInt 1], [Val.vInt 3]] 0 true).2.reverse) := by
  have h := sortStructSlice_reverse_and_idempotent [Kind.kInt]
    [[Val.vInt 2], [Val.vInt 1], [Val.vInt 3]] 0 (by decide)
  exact ⟨h.1, (h.2 (by decide)).1, (h.2 (by decide)).2⟩

end StructTableViewModel
